import Mathlib

/-!
Verification of the RPC call dispatcher in `src/lib/rpc.js`
(`@rowanmanning/rpc`).

The core of the library is a JSON-level call dispatcher: decoded JSON
values come in, are validated (`RPC.assertValidCall`), routed to a
registered handler (`this.methods`), and every outcome is normalised
into a response envelope.  We embed the decoded-JSON value space as the
inductive `JsValue`, registered handlers as Lean functions producing a
`HandlerOutcome` (resolve with a value, or throw/reject with a value),
and the dispatcher `RPC.call` / `RPC.batch` as functions over those.

Modelling notes, fixed once here:
* JavaScript numbers are modelled as `Int`; none of the dispatcher's
  control flow inspects numeric values beyond truthiness (`0` falsy).
* Property access `x.f` is `getField x "f"`, own-property lookup: the
  fixed field names the source reads (`id` / `method` / `params`,
  `code` / `message` / `data`) are not `Object.prototype` members, so
  nothing is inherited there.  The registry read
  `this.methods[call.method]`, whose key is caller-controlled, does
  consult the prototype chain: `methodsHasTruthy` and `protoInvoke`
  model the inherited `Object.prototype` members.
* A JS function value cannot live inside `JsValue` (decoded JSON never
  holds one); where the source lets arguments be function-or-not
  (`addMethod`), the argument type is `JsArg`.
* `async`/`await` plumbing is dropped: a settled promise is its
  outcome.  `Promise.all` is `promiseAll`.  An exception escaping
  `call` itself (the promise it returns rejecting) is the outcome
  `CallOutcome.dispatcherThrow`.
-/

/-- A decoded JSON value as JavaScript sees it, plus `undefined`
(the result of reading an absent property). -/
inductive JsValue where
  | undefined : JsValue
  | null : JsValue
  | boolean (b : Bool) : JsValue
  | number (n : Int) : JsValue
  | string (s : String) : JsValue
  | array (elems : List JsValue) : JsValue
  | object (fields : List (String × JsValue)) : JsValue
deriving Repr

/-- Top-level fields of a plain object. -/
abbrev Obj := List (String × JsValue)

/-- JavaScript truthiness.  `undefined`, `null`, `false`, `0` and `""`
are falsy; every object and array (even empty) is truthy.  (`NaN`,
also falsy, has no counterpart in the `Int` number model; the
dispatcher never manufactures one.) -/
def truthy : JsValue → Bool
  | JsValue.undefined => false
  | JsValue.null => false
  | JsValue.boolean b => b
  | JsValue.number n => !(n == 0)
  | JsValue.string s => !(s == "")
  | JsValue.array _ => true
  | JsValue.object _ => true

/-- `x === null || x === undefined`: the values on which property
access throws a `TypeError`. -/
def isNullish : JsValue → Bool
  | JsValue.undefined => true
  | JsValue.null => true
  | _ => false

/-- The `is-plain-object` check used by `assertValidCall`: among
decoded JSON values exactly the plain objects qualify (arrays, `null`
and scalars do not). -/
def isPlainObject : JsValue → Bool
  | JsValue.object _ => true
  | _ => false

def isUndefined : JsValue → Bool
  | JsValue.undefined => true
  | _ => false

def isArray : JsValue → Bool
  | JsValue.array _ => true
  | _ => false

/-- Property read `v.k`.  On a plain object: own-property lookup, or
`undefined` when absent.  On primitives JavaScript also yields
`undefined` for the fields the source reads.  (On nullish values JS
would throw; the source only reads fields on guarded values, except in
the catch block, which is modelled separately in `catchBranch`.) -/
def getField (v : JsValue) (k : String) : JsValue :=
  match v with
  | JsValue.object fields => (fields.lookup k).getD JsValue.undefined
  | _ => JsValue.undefined

/-- The code points `String.prototype.trim()` strips, per the
ECMAScript TrimString operation: WhiteSpace — TAB, VT, FF, ZWNBSP and
the Unicode Space_Separator category (SP, NBSP, U+1680,
U+2000–U+200A, U+202F, U+205F, U+3000) — plus LineTerminator (LF, CR,
LS, PS). -/
def jsWhitespace (c : Char) : Bool :=
  let n := c.toNat
  n == 0x0009 || n == 0x000A || n == 0x000B || n == 0x000C || n == 0x000D ||
  n == 0x0020 || n == 0x00A0 || n == 0x1680 ||
  (decide (0x2000 ≤ n) && decide (n ≤ 0x200A)) ||
  n == 0x2028 || n == 0x2029 || n == 0x202F || n == 0x205F ||
  n == 0x3000 || n == 0xFEFF

/-- `s.trim().length === 0`: trimming leading and trailing whitespace
leaves nothing, i.e. every character is JS whitespace (true for
`""`).  Stated this way because it is what the kernel can evaluate. -/
def trimmedEmpty (s : String) : Bool :=
  s.data.all jsWhitespace

/-- `typeof v === 'string' && v.trim().length !== 0`. -/
def isNonEmptyTrimmedString : JsValue → Bool
  | JsValue.string s => !(trimmedEmpty s)
  | _ => false

/-- `a || b`. -/
def jsOr (a b : JsValue) : JsValue :=
  if truthy a then a else b

/-- The string content of a validated `method` field (validation
guarantees the field is a string before it is used as a key). -/
def jsStringOrEmpty : JsValue → String
  | JsValue.string s => s
  | _ => ""

/-- What a registered handler invocation settles to: a resolved value,
or a thrown/rejected value (any `JsValue`). -/
inductive HandlerOutcome where
  | ok (v : JsValue) : HandlerOutcome
  | thrown (e : JsValue) : HandlerOutcome

/-- A registered handler, as invoked by the dispatcher with
`(params, request)`.  The third JS argument (`this`, the RPC instance)
is not modelled: handlers are quantified over extensionally, so every
behaviour reachable through it is already covered. -/
abbrev Handler := Obj → JsValue → HandlerOutcome

/-- The method registry `this.methods`, own properties only. -/
abbrev Methods := List (String × Handler)

/-- Property assignment `methods[name] = handler`: overwrite in place
when the key exists, otherwise append (an own property, shadowing any
inherited member of the same name). -/
def setMethod : Methods → String → Handler → Methods
  | [], name, h => [(name, h)]
  | (k, v) :: rest, name, h =>
      if k == name then (k, h) :: rest else (k, v) :: setMethod rest name h

/-- The properties the registry object `this.methods = {}` inherits
from `Object.prototype`: eleven builtin functions plus the `__proto__`
accessor (whose read yields `Object.prototype`).  A property read on
the registry with a caller-controlled key falls back to these when no
method was registered under the name, and every one of them reads
truthy. -/
def objectPrototypeKeys : List String :=
  ["constructor", "toString", "toLocaleString", "valueOf", "hasOwnProperty",
   "isPrototypeOf", "propertyIsEnumerable", "__defineGetter__", "__defineSetter__",
   "__lookupGetter__", "__lookupSetter__", "__proto__"]

/-- The truthiness test `!!this.methods[name]`: true when a handler
was registered under the name (functions are truthy) or when the read
falls through to an inherited `Object.prototype` member (all of which
are truthy). -/
def methodsHasTruthy (ms : Methods) (name : String) : Bool :=
  (ms.lookup name).isSome || objectPrototypeKeys.contains name

/-- The error object built by `RPC.prototype.throw(message, code)`:
`new Error(message)` with a truthy `code` set on it (both call sites in
`assertValidCall` pass a code and no data). -/
def mkError (message : String) (code : String) : JsValue :=
  JsValue.object [("message", JsValue.string message), ("code", JsValue.string code)]

/-- `RPC.prototype.assertValidCall`, as a function returning the thrown
error (`some e`) or `none` when every check passes.  The five checks in
source order; the second mirrors the nested
`if (typeof call.id !== 'string' || call.id.trim().length === 0)
 { if (call.id !== undefined) throw }`, and the fifth is
`if (!this.methods[call.method])` — a prototype-chain truthiness read,
so an inherited `Object.prototype` member name passes it. -/
def RPC.assertValidCall (ms : Methods) (c : JsValue) : Option JsValue :=
  if !isPlainObject c then
    some (mkError "Call must be a plain object" "INVALID_REQUEST")
  else if !isNonEmptyTrimmedString (getField c "id") && !isUndefined (getField c "id") then
    some (mkError "Call ID must be a non-empty string or undefined" "INVALID_REQUEST")
  else if !isNonEmptyTrimmedString (getField c "method") then
    some (mkError "Call method must be a non-empty string" "INVALID_REQUEST")
  else if !isPlainObject (getField c "params") && !isUndefined (getField c "params") then
    some (mkError "Call params must be a plain object or undefined" "INVALID_REQUEST")
  else if !methodsHasTruthy ms (jsStringOrEmpty (getField c "method")) then
    some (mkError "Call method does not exist" "METHOD_NOT_FOUND")
  else
    none

/-- What the promise returned by `RPC.prototype.call` does. -/
inductive CallOutcome where
  | resolved (resp : JsValue) : CallOutcome
  | dispatcherThrow : CallOutcome

/-- The `error` sub-object built in the catch block of `call`: each of
`code`, `message`, `data` copied from the caught error, in that order,
only when truthy. -/
def errorFields (error : JsValue) : Obj :=
  let e1 : Obj :=
    if truthy (getField error "code") then [("code", getField error "code")] else []
  let e2 : Obj :=
    if truthy (getField error "message") then e1 ++ [("message", getField error "message")] else e1
  let e3 : Obj :=
    if truthy (getField error "data") then e2 ++ [("data", getField error "data")] else e2
  e3

/-- The catch block of `RPC.prototype.call`.  `id` is
`(call && call.id ? call.id : null)`.  When the caught value is nullish
the very first property access `error.code` throws a `TypeError`
inside the catch block, so `call` itself rejects. -/
def catchBranch (call : JsValue) (error : JsValue) : CallOutcome :=
  if isNullish error then
    CallOutcome.dispatcherThrow
  else
    CallOutcome.resolved (JsValue.object
      [("id", if truthy call && truthy (getField call "id") then getField call "id" else JsValue.null),
       ("error", JsValue.object (errorFields error))])

/-- `this.methods[call.method](params, request, this)` when no own
registration exists: the property read falls back to the inherited
`Object.prototype` member, invoked with receiver `this.methods` and
arguments `(params, request, this)`.  Each member is modelled from its
ECMAScript semantics as far as observable in the decoded-JSON value
space:
* `constructor` is the `Object` function, which returns its object
  argument (the params copy) unchanged;
* `toString` yields `"[object Object]"` (the registry has no tag), as
  does `toLocaleString` via the inherited `toString` (a registration
  named `toString` would shadow that internal call with a handler
  invoked on no arguments — a host-level corner outside the `Handler`
  signature and not reached by any theorem here);
* `valueOf` returns the registry object itself, a host object of
  functions outside decoded JSON; it is represented by its JSON
  serialisation, the empty object (`JSON.stringify` drops
  function-valued properties);
* `hasOwnProperty` / `propertyIsEnumerable` coerce the params-copy
  argument to the property key `"[object Object]"` and test the
  registry's own (enumerable, by assignment) properties;
* `isPrototypeOf` is false: the registry is not in the fresh params
  copy's prototype chain;
* `__lookupGetter__` / `__lookupSetter__` find no accessor under
  `"[object Object]"` and return `undefined`;
* `__defineGetter__` / `__defineSetter__` throw a `TypeError` because
  the second argument (the request object) is not callable;
* reading `__proto__` yields `Object.prototype` (truthy, so it passed
  check 5) which is not callable, so the call throws a `TypeError` —
  as does the final branch, calling `undefined`, unreachable after
  validation. -/
def protoInvoke (ms : Methods) (name : String) (params : Obj) (_request : JsValue) :
    HandlerOutcome :=
  if name == "constructor" then
    HandlerOutcome.ok (JsValue.object params)
  else if name == "toString" || name == "toLocaleString" then
    HandlerOutcome.ok (JsValue.string "[object Object]")
  else if name == "valueOf" then
    HandlerOutcome.ok (JsValue.object [])
  else if name == "hasOwnProperty" || name == "propertyIsEnumerable" then
    HandlerOutcome.ok (JsValue.boolean ((ms.lookup "[object Object]").isSome))
  else if name == "isPrototypeOf" then
    HandlerOutcome.ok (JsValue.boolean false)
  else if name == "__lookupGetter__" || name == "__lookupSetter__" then
    HandlerOutcome.ok JsValue.undefined
  else if name == "__defineGetter__" then
    HandlerOutcome.thrown (JsValue.object
      [("message", JsValue.string "Getter must be a function: [object Object]")])
  else if name == "__defineSetter__" then
    HandlerOutcome.thrown (JsValue.object
      [("message", JsValue.string "Setter must be a function: [object Object]")])
  else
    HandlerOutcome.thrown (JsValue.object
      [("message", JsValue.string "this.methods[call.method] is not a function")])

/-- `this.methods[call.method](params, request, this)`: a registered
(own) handler when one exists, otherwise the inherited member
invocation modelled by `protoInvoke`. -/
def invokeHandler (ms : Methods) (name : String) (params : Obj) (request : JsValue) :
    HandlerOutcome :=
  match ms.lookup name with
  | some h => h params request
  | none => protoInvoke ms name params request

/-- `RPC.prototype.call`: validate, then
`id = call.id || null`, `params = Object.assign({}, call.params)`
(`copyParams` below gives the copy's top-level contents), invoke the
handler, and wrap the outcome; every throw lands in `catchBranch`. -/
def copyParams : JsValue → Obj
  | JsValue.object fields => fields
  | _ => []

def RPC.call (ms : Methods) (c : JsValue) (request : JsValue) : CallOutcome :=
  match RPC.assertValidCall ms c with
  | some err => catchBranch c err
  | none =>
    match invokeHandler ms (jsStringOrEmpty (getField c "method"))
        (copyParams (getField c "params")) request with
    | HandlerOutcome.ok v =>
        CallOutcome.resolved (JsValue.object
          [("id", jsOr (getField c "id") JsValue.null), ("result", v)])
    | HandlerOutcome.thrown e => catchBranch c e

/-- `Promise.all` over settled call outcomes: resolves with the values
in order, rejects as soon as any member rejected. -/
def promiseAll : List CallOutcome → Option (List JsValue)
  | [] => some []
  | CallOutcome.resolved r :: rest => (promiseAll rest).map (fun l => r :: l)
  | CallOutcome.dispatcherThrow :: _ => none

/-- What `RPC.prototype.batch` returns: for a non-array, a bare error
envelope (synchronously, not wrapped in an array); for an array, the
`Promise.all` of dispatching every entry. -/
inductive BatchOutcome where
  | singleResp (resp : JsValue) : BatchOutcome
  | resolvedList (resps : List JsValue) : BatchOutcome
  | rejected : BatchOutcome

def RPC.batch (ms : Methods) (b : JsValue) (request : JsValue) : BatchOutcome :=
  match b with
  | JsValue.array calls =>
      match promiseAll (calls.map (fun c => RPC.call ms c request)) with
      | some rs => BatchOutcome.resolvedList rs
      | none => BatchOutcome.rejected
  | _ =>
      BatchOutcome.singleResp (JsValue.object
        [("id", JsValue.null),
         ("error", JsValue.object
           [("code", JsValue.string "INVALID_REQUEST"),
            ("message", JsValue.string "Batch call must be an array")])])

/-- An argument to `addMethod`: an ordinary JS value, or a function. -/
inductive JsArg where
  | value (v : JsValue) : JsArg
  | func (h : Handler) : JsArg

/-- `typeof name === 'string' && name.trim().length !== 0` on a
function-or-value argument. -/
def isNonEmptyStringArg : JsArg → Bool
  | JsArg.value (JsValue.string s) => !(trimmedEmpty s)
  | _ => false

/-- `typeof handler === 'function'`. -/
def isFuncArg : JsArg → Bool
  | JsArg.func _ => true
  | _ => false

def argString : JsArg → String
  | JsArg.value (JsValue.string s) => s
  | _ => ""

def argFunc : JsArg → Handler
  | JsArg.func h => h
  | _ => fun _ _ => HandlerOutcome.ok JsValue.undefined

/-- `RPC.prototype.addMethod`: the two `TypeError`s in source order,
then `this.methods[name] = handler`. -/
def RPC.addMethod (ms : Methods) (name : JsArg) (handler : JsArg) : Except String Methods :=
  if !isNonEmptyStringArg name then
    Except.error "Method name must be a non-empty string"
  else if !isFuncArg handler then
    Except.error "Method handler must be a function"
  else
    Except.ok (setMethod ms (argString name) (argFunc handler))

/-! ## The five validation rules as standalone predicates

Used to state the precedence property of `assertValidCall` (claim C2):
each predicate is the source condition of the corresponding check,
readable independently of the order the source tests them in. -/

def ruleNotPlainObject (c : JsValue) : Bool :=
  !isPlainObject c

def ruleBadId (c : JsValue) : Bool :=
  !isNonEmptyTrimmedString (getField c "id") && !isUndefined (getField c "id")

def ruleBadMethod (c : JsValue) : Bool :=
  !isNonEmptyTrimmedString (getField c "method")

def ruleBadParams (c : JsValue) : Bool :=
  !isPlainObject (getField c "params") && !isUndefined (getField c "params")

def ruleMethodMissing (ms : Methods) (c : JsValue) : Bool :=
  !methodsHasTruthy ms (jsStringOrEmpty (getField c "method"))

/-- Presence of a top-level field. -/
def hasField (fields : Obj) (k : String) : Bool :=
  (fields.lookup k).isSome

/-- A response envelope carries exactly one of `result` / `error`
(claim C6); a rejection produces no envelope at all. -/
def exclusiveResultError : CallOutcome → Bool
  | CallOutcome.resolved (JsValue.object fields) =>
      (hasField fields "result" && !hasField fields "error") ||
      (hasField fields "error" && !hasField fields "result")
  | CallOutcome.resolved _ => false
  | CallOutcome.dispatcherThrow => true

/-- A handler invocation outcome whose thrown value (if any) is not
nullish, i.e. one the catch block of `call` can convert. -/
def outcomeNonNullish : HandlerOutcome → Bool
  | HandlerOutcome.ok _ => true
  | HandlerOutcome.thrown e => !(isNullish e)

/-! ## Helper lemmas -/

theorem assertValidCall_err_not_nullish (ms : Methods) (c err : JsValue)
    (h : RPC.assertValidCall ms c = some err) : isNullish err = false := by
  unfold RPC.assertValidCall at h
  split_ifs at h <;> injection h with h2 <;> subst h2 <;> rfl

theorem catchBranch_eq_resolved (c e : JsValue) (h : isNullish e = false) :
    catchBranch c e = CallOutcome.resolved (JsValue.object
      [("id", if truthy c && truthy (getField c "id") then getField c "id" else JsValue.null),
       ("error", JsValue.object (errorFields e))]) := by
  unfold catchBranch
  rw [h]
  rfl

theorem exclusiveResultError_catchBranch (c e : JsValue) :
    exclusiveResultError (catchBranch c e) = true := by
  unfold catchBranch
  cases h : isNullish e <;> rfl

theorem protoInvoke_nonNullish (ms : Methods) (name : String) (params : Obj)
    (request : JsValue) :
    outcomeNonNullish (protoInvoke ms name params request) = true := by
  unfold protoInvoke
  split_ifs <;> rfl

/-! ## Claim theorems -/

/-- Claim C10 (confirmed): the empty batch is a valid sequence: for
every registry and request context, `batch([], ctx)` resolves to the
empty response list (so in particular it is not the malformed-batch
envelope, and no handler is consulted: the result is the same for
every registry `ms`). -/
theorem rpc_batch_empty_array (ms : Methods) (req : JsValue) :
    RPC.batch ms (JsValue.array []) req = BatchOutcome.resolvedList [] :=
  rfl

/-- Claim C5 (confirmed): for every non-array input, `batch` returns
the single bare error envelope, not wrapped in an array; the result is
the same for every registry, so no dispatch happens. -/
theorem rpc_batch_non_array (ms : Methods) (b req : JsValue)
    (hb : isArray b = false) :
    RPC.batch ms b req = BatchOutcome.singleResp (JsValue.object
      [("id", JsValue.null),
       ("error", JsValue.object
         [("code", JsValue.string "INVALID_REQUEST"),
          ("message", JsValue.string "Batch call must be an array")])]) := by
  cases b <;> simp_all [RPC.batch, isArray]

/-- Claim C5 witness: a number input. -/
theorem rpc_batch_non_array_witness :
    isArray (JsValue.number 123) = false
    ∧ RPC.batch [] (JsValue.number 123) (JsValue.object [])
      = BatchOutcome.singleResp (JsValue.object
        [("id", JsValue.null),
         ("error", JsValue.object
           [("code", JsValue.string "INVALID_REQUEST"),
            ("message", JsValue.string "Batch call must be an array")])]) :=
  ⟨by decide, rpc_batch_non_array [] (JsValue.number 123) (JsValue.object []) (by decide)⟩

/-- Claim C6 (confirmed): every envelope the dispatcher resolves with
carries exactly one of `result` / `error`, never both, never neither —
for every registry, raw input and request context. -/
theorem rpc_call_exactly_one_of_result_error (ms : Methods) (c req : JsValue) :
    exclusiveResultError (RPC.call ms c req) = true := by
  rcases hv : RPC.assertValidCall ms c with _ | err
  · rcases hh : invokeHandler ms (jsStringOrEmpty (getField c "method"))
        (copyParams (getField c "params")) req with v | e
    · simp only [RPC.call, hv, hh]
      rfl
    · simp only [RPC.call, hv, hh]
      exact exclusiveResultError_catchBranch c e
  · simp only [RPC.call, hv]
    exact exclusiveResultError_catchBranch c err

/-- Claim C2 counterexample: the unregistered method name `toString`
resolves to the inherited `Object.prototype.toString` on the registry
object, so `!this.methods[call.method]` is false, validation passes
with no METHOD_NOT_FOUND failure — contradicting "method not
registered in the registry → METHOD_NOT_FOUND" — and the dispatch
resolves with the builtin's result. -/
theorem assertValidCall_inherited_method_passes :
    RPC.assertValidCall [] (JsValue.object [("method", JsValue.string "toString")]) = none
    ∧ ¬ (RPC.assertValidCall [] (JsValue.object [("method", JsValue.string "toString")])
        = some (mkError "Call method does not exist" "METHOD_NOT_FOUND"))
    ∧ RPC.call [] (JsValue.object [("method", JsValue.string "toString")]) (JsValue.object [])
      = CallOutcome.resolved (JsValue.object
          [("id", JsValue.null), ("result", JsValue.string "[object Object]")]) := by
  refine ⟨rfl, ?_, rfl⟩
  intro h
  rw [show RPC.assertValidCall [] (JsValue.object [("method", JsValue.string "toString")])
      = none from rfl] at h
  exact Option.noConfusion h

/-- Claim C2 (corrected): `assertValidCall` reports exactly the first
violated rule, in the fixed order plain-object, id, method, params,
method-existence, with the exact message and code of that rule, and a
call violating no rule passes — where rule 5 fires exactly when the
method name resolves to no truthy property of the registry object:
neither a registered handler nor an inherited `Object.prototype`
member (so an unregistered name such as `toString` passes validation,
see the counterexample). -/
theorem assertValidCall_first_violated_rule (ms : Methods) (c : JsValue) :
    (ruleNotPlainObject c = true →
      RPC.assertValidCall ms c
        = some (mkError "Call must be a plain object" "INVALID_REQUEST"))
    ∧ (ruleNotPlainObject c = false → ruleBadId c = true →
      RPC.assertValidCall ms c
        = some (mkError "Call ID must be a non-empty string or undefined" "INVALID_REQUEST"))
    ∧ (ruleNotPlainObject c = false → ruleBadId c = false → ruleBadMethod c = true →
      RPC.assertValidCall ms c
        = some (mkError "Call method must be a non-empty string" "INVALID_REQUEST"))
    ∧ (ruleNotPlainObject c = false → ruleBadId c = false → ruleBadMethod c = false →
        ruleBadParams c = true →
      RPC.assertValidCall ms c
        = some (mkError "Call params must be a plain object or undefined" "INVALID_REQUEST"))
    ∧ (ruleNotPlainObject c = false → ruleBadId c = false → ruleBadMethod c = false →
        ruleBadParams c = false → ruleMethodMissing ms c = true →
      RPC.assertValidCall ms c
        = some (mkError "Call method does not exist" "METHOD_NOT_FOUND"))
    ∧ (ruleNotPlainObject c = false → ruleBadId c = false → ruleBadMethod c = false →
        ruleBadParams c = false → ruleMethodMissing ms c = false →
      RPC.assertValidCall ms c = none) := by
  refine ⟨?_, ?_, ?_, ?_, ?_, ?_⟩
  · intro h1
    unfold ruleNotPlainObject at h1
    unfold RPC.assertValidCall
    simp only [h1]
    rfl
  · intro h1 h2
    unfold ruleNotPlainObject at h1
    unfold ruleBadId at h2
    unfold RPC.assertValidCall
    simp only [h1, h2]
    rfl
  · intro h1 h2 h3
    unfold ruleNotPlainObject at h1
    unfold ruleBadId at h2
    unfold ruleBadMethod at h3
    unfold RPC.assertValidCall
    simp only [h1, h2, h3]
    rfl
  · intro h1 h2 h3 h4
    unfold ruleNotPlainObject at h1
    unfold ruleBadId at h2
    unfold ruleBadMethod at h3
    unfold ruleBadParams at h4
    unfold RPC.assertValidCall
    simp only [h1, h2, h3, h4]
    rfl
  · intro h1 h2 h3 h4 h5
    unfold ruleNotPlainObject at h1
    unfold ruleBadId at h2
    unfold ruleBadMethod at h3
    unfold ruleBadParams at h4
    unfold ruleMethodMissing at h5
    unfold RPC.assertValidCall
    simp only [h1, h2, h3, h4, h5]
    rfl
  · intro h1 h2 h3 h4 h5
    unfold ruleNotPlainObject at h1
    unfold ruleBadId at h2
    unfold ruleBadMethod at h3
    unfold ruleBadParams at h4
    unfold ruleMethodMissing at h5
    unfold RPC.assertValidCall
    simp only [h1, h2, h3, h4, h5]
    rfl

/-- Claim C2 witness: one input per rule, the first three violating
every later rule as well (so precedence is exercised), and one fully
valid call. -/
theorem assertValidCall_first_violated_rule_witness :
    RPC.assertValidCall [] (JsValue.number 7)
      = some (mkError "Call must be a plain object" "INVALID_REQUEST")
    ∧ RPC.assertValidCall []
        (JsValue.object [("id", JsValue.array [JsValue.number 1]), ("method", JsValue.number 2)])
      = some (mkError "Call ID must be a non-empty string or undefined" "INVALID_REQUEST")
    ∧ RPC.assertValidCall []
        (JsValue.object [("id", JsValue.string "abc"), ("method", JsValue.number 2),
                         ("params", JsValue.number 3)])
      = some (mkError "Call method must be a non-empty string" "INVALID_REQUEST")
    ∧ RPC.assertValidCall []
        (JsValue.object [("method", JsValue.string "nope"), ("params", JsValue.number 3)])
      = some (mkError "Call params must be a plain object or undefined" "INVALID_REQUEST")
    ∧ RPC.assertValidCall []
        (JsValue.object [("method", JsValue.string "nope")])
      = some (mkError "Call method does not exist" "METHOD_NOT_FOUND")
    ∧ RPC.assertValidCall [("m", fun _ _ => HandlerOutcome.ok JsValue.null)]
        (JsValue.object [("id", JsValue.string "abc"), ("method", JsValue.string "m"),
                         ("params", JsValue.object [("a", JsValue.number 1)])])
      = none :=
  ⟨(assertValidCall_first_violated_rule [] _).1 (by decide),
   (assertValidCall_first_violated_rule [] _).2.1 (by decide) (by decide),
   (assertValidCall_first_violated_rule [] _).2.2.1 (by decide) (by decide) (by decide),
   (assertValidCall_first_violated_rule [] _).2.2.2.1 (by decide) (by decide) (by decide)
     (by decide),
   (assertValidCall_first_violated_rule [] _).2.2.2.2.1 (by decide) (by decide) (by decide)
     (by decide) (by decide),
   (assertValidCall_first_violated_rule
       [("m", fun _ _ => HandlerOutcome.ok JsValue.null)] _).2.2.2.2.2
     (by decide) (by decide) (by decide) (by decide) (by rfl)⟩

/-- Claim C7 (confirmed): when the handler throws/rejects with a
non-nullish value `e`, the response's error object contains exactly
those of `code`, `message`, `data` that are truthy on `e`, copied
verbatim, and no other field — in particular no `code` key is ever
synthesised. -/
theorem rpc_call_handler_error_field_filter (e req : JsValue)
    (he : isNullish e = false) :
    ∃ fields,
      RPC.call [("m", fun _ _ => HandlerOutcome.thrown e)]
        (JsValue.object [("method", JsValue.string "m")]) req
      = CallOutcome.resolved (JsValue.object
          [("id", JsValue.null), ("error", JsValue.object fields)])
      ∧ fields.lookup "code"
          = (if truthy (getField e "code") then some (getField e "code") else none)
      ∧ fields.lookup "message"
          = (if truthy (getField e "message") then some (getField e "message") else none)
      ∧ fields.lookup "data"
          = (if truthy (getField e "data") then some (getField e "data") else none) := by
  refine ⟨errorFields e, ?_, ?_, ?_, ?_⟩
  · have h1 : RPC.call [("m", fun _ _ => HandlerOutcome.thrown e)]
        (JsValue.object [("method", JsValue.string "m")]) req
        = catchBranch (JsValue.object [("method", JsValue.string "m")]) e := rfl
    rw [h1, catchBranch_eq_resolved _ _ he]
    rfl
  · simp only [errorFields]
    cases truthy (getField e "code") <;> cases truthy (getField e "message") <;>
      cases truthy (getField e "data") <;> rfl
  · simp only [errorFields]
    cases truthy (getField e "code") <;> cases truthy (getField e "message") <;>
      cases truthy (getField e "data") <;> rfl
  · simp only [errorFields]
    cases truthy (getField e "code") <;> cases truthy (getField e "message") <;>
      cases truthy (getField e "data") <;> rfl

/-- Claim C7 witness: the spec scenario, a plain error carrying only
the message string from the integration fixture. -/
theorem rpc_call_handler_error_field_filter_witness :
    isNullish (JsValue.object [("message", JsValue.string "\"b\" must be a number")]) = false
    ∧ ∃ fields,
      RPC.call [("m", fun _ _ => HandlerOutcome.thrown
          (JsValue.object [("message", JsValue.string "\"b\" must be a number")]))]
        (JsValue.object [("method", JsValue.string "m")]) (JsValue.object [])
      = CallOutcome.resolved (JsValue.object
          [("id", JsValue.null), ("error", JsValue.object fields)])
      ∧ fields.lookup "code"
          = (if truthy (getField (JsValue.object [("message", JsValue.string "\"b\" must be a number")]) "code")
             then some (getField (JsValue.object [("message", JsValue.string "\"b\" must be a number")]) "code")
             else none)
      ∧ fields.lookup "message"
          = (if truthy (getField (JsValue.object [("message", JsValue.string "\"b\" must be a number")]) "message")
             then some (getField (JsValue.object [("message", JsValue.string "\"b\" must be a number")]) "message")
             else none)
      ∧ fields.lookup "data"
          = (if truthy (getField (JsValue.object [("message", JsValue.string "\"b\" must be a number")]) "data")
             then some (getField (JsValue.object [("message", JsValue.string "\"b\" must be a number")]) "data")
             else none) :=
  ⟨by decide,
   rpc_call_handler_error_field_filter
     (JsValue.object [("message", JsValue.string "\"b\" must be a number")])
     (JsValue.object []) (by decide)⟩

/-- Claim C3 counterexample: an invalid id that is present but falsy
(the empty string) is not echoed back — the envelope's id is `null`,
refuting "the raw invalid value is echoed back unchanged" for every
present invalid id. -/
theorem rpc_call_falsy_invalid_id_not_echoed :
    RPC.call [] (JsValue.object [("id", JsValue.string ""), ("method", JsValue.string "m")])
        (JsValue.object [])
      = CallOutcome.resolved (JsValue.object
          [("id", JsValue.null),
           ("error", JsValue.object
             [("code", JsValue.string "INVALID_REQUEST"),
              ("message", JsValue.string "Call ID must be a non-empty string or undefined")])])
    ∧ ¬ (RPC.call [] (JsValue.object [("id", JsValue.string ""), ("method", JsValue.string "m")])
        (JsValue.object [])
      = CallOutcome.resolved (JsValue.object
          [("id", JsValue.string ""),
           ("error", JsValue.object
             [("code", JsValue.string "INVALID_REQUEST"),
              ("message", JsValue.string "Call ID must be a non-empty string or undefined")])])) := by
  refine ⟨rfl, ?_⟩
  intro h
  rw [show RPC.call [] (JsValue.object [("id", JsValue.string ""), ("method", JsValue.string "m")])
        (JsValue.object [])
      = CallOutcome.resolved (JsValue.object
          [("id", JsValue.null),
           ("error", JsValue.object
             [("code", JsValue.string "INVALID_REQUEST"),
              ("message", JsValue.string "Call ID must be a non-empty string or undefined")])])
      from rfl] at h
  simp at h

/-- Claim C3 (corrected): on validation failure the envelope's id is
null whenever the raw input is not a mapping; when the raw input is a
mapping whose id is present, invalid and *truthy* (e.g. `[1]`), the
raw value is echoed back unchanged.  (A falsy invalid id — `""`, `0`,
`false`, `null` — is nulled, see the counterexample.) -/
theorem rpc_call_invalid_id_echo (ms : Methods) (req v : JsValue)
    (hv : truthy v = true) (hinv : isNonEmptyTrimmedString v = false) :
    RPC.call ms (JsValue.object [("id", v), ("method", JsValue.string "m")]) req
      = CallOutcome.resolved (JsValue.object
          [("id", v),
           ("error", JsValue.object
             [("code", JsValue.string "INVALID_REQUEST"),
              ("message", JsValue.string "Call ID must be a non-empty string or undefined")])])
    ∧ ∀ c req2, isPlainObject c = false →
      RPC.call ms c req2
        = CallOutcome.resolved (JsValue.object
            [("id", JsValue.null),
             ("error", JsValue.object
               [("code", JsValue.string "INVALID_REQUEST"),
                ("message", JsValue.string "Call must be a plain object")])]) := by
  constructor
  · have hu : isUndefined v = false := by
      cases v <;> simp_all [truthy, isUndefined]
    have hg : getField (JsValue.object [("id", v), ("method", JsValue.string "m")]) "id" = v := rfl
    have hval : RPC.assertValidCall ms (JsValue.object [("id", v), ("method", JsValue.string "m")])
        = some (mkError "Call ID must be a non-empty string or undefined" "INVALID_REQUEST") := by
      unfold RPC.assertValidCall
      simp only [hg, hinv, hu]
      rfl
    simp only [RPC.call, hval]
    rw [catchBranch_eq_resolved _ _ (by rfl)]
    simp only [hg, hv]
    rfl
  · intro c req2 hc
    have hval : RPC.assertValidCall ms c
        = some (mkError "Call must be a plain object" "INVALID_REQUEST") := by
      unfold RPC.assertValidCall
      simp only [hc]
      rfl
    have hgid : getField c "id" = JsValue.undefined := by
      cases c <;> simp_all [getField, isPlainObject]
    simp only [RPC.call, hval]
    rw [catchBranch_eq_resolved _ _ (by rfl)]
    simp only [hgid, show truthy JsValue.undefined = false from rfl, Bool.and_false]
    rfl

/-- Claim C3 witness: the spec scenario `{"id": [1], "method": "m"}`
echoes the array id, and a bare number input yields a null id. -/
theorem rpc_call_invalid_id_echo_witness :
    RPC.call [] (JsValue.object [("id", JsValue.array [JsValue.number 1]),
        ("method", JsValue.string "m")]) (JsValue.object [])
      = CallOutcome.resolved (JsValue.object
          [("id", JsValue.array [JsValue.number 1]),
           ("error", JsValue.object
             [("code", JsValue.string "INVALID_REQUEST"),
              ("message", JsValue.string "Call ID must be a non-empty string or undefined")])])
    ∧ RPC.call [] (JsValue.number 42) (JsValue.object [])
      = CallOutcome.resolved (JsValue.object
          [("id", JsValue.null),
           ("error", JsValue.object
             [("code", JsValue.string "INVALID_REQUEST"),
              ("message", JsValue.string "Call must be a plain object")])]) :=
  ⟨(rpc_call_invalid_id_echo [] (JsValue.object []) (JsValue.array [JsValue.number 1])
      (by decide) (by decide)).1,
   (rpc_call_invalid_id_echo [] (JsValue.object []) (JsValue.array [JsValue.number 1])
      (by decide) (by decide)).2 (JsValue.number 42) (JsValue.object []) (by decide)⟩

/-- Claim C1 counterexample: a handler that throws `null` defeats the
catch block — reading `error.code` on the caught `null` throws a
`TypeError` inside the catch block, so the promise returned by `call`
rejects instead of resolving to a CallResponse. -/
theorem rpc_call_nullish_throw_escapes :
    RPC.call [("m", fun _ _ => HandlerOutcome.thrown JsValue.null)]
      (JsValue.object [("method", JsValue.string "m")]) (JsValue.object [])
    = CallOutcome.dispatcherThrow :=
  rfl

/-- Claim C1 (corrected): for every raw input and request context,
`call` resolves to a CallResponse provided every handler invocation in
the registry only throws/rejects non-nullish values; a handler that
throws `null`/`undefined` instead makes `call` itself reject (see the
counterexample). -/
theorem rpc_call_always_resolves (ms : Methods) (c req : JsValue)
    (hms : ∀ name params r, outcomeNonNullish (invokeHandler ms name params r) = true) :
    ∃ resp, RPC.call ms c req = CallOutcome.resolved resp := by
  rcases hv : RPC.assertValidCall ms c with _ | err
  · rcases hh : invokeHandler ms (jsStringOrEmpty (getField c "method"))
        (copyParams (getField c "params")) req with v | e
    · exact ⟨JsValue.object [("id", jsOr (getField c "id") JsValue.null), ("result", v)],
        by simp only [RPC.call, hv, hh]⟩
    · have he : isNullish e = false := by
        have h2 := hms (jsStringOrEmpty (getField c "method"))
          (copyParams (getField c "params")) req
        rw [hh] at h2
        simpa [outcomeNonNullish] using h2
      exact ⟨_, by simp only [RPC.call, hv, hh]; exact catchBranch_eq_resolved c e he⟩
  · have he := assertValidCall_err_not_nullish ms c err hv
    exact ⟨_, by simp only [RPC.call, hv]; exact catchBranch_eq_resolved c err he⟩

/-- Claim C1 witness: the empty registry rejects nothing, so a call
dispatched against it resolves. -/
theorem rpc_call_always_resolves_witness :
    ∃ resp, RPC.call [] (JsValue.object [("method", JsValue.string "x")]) (JsValue.object [])
      = CallOutcome.resolved resp :=
  rpc_call_always_resolves [] (JsValue.object [("method", JsValue.string "x")])
    (JsValue.object []) (fun name p r => protoInvoke_nonNullish [] name p r)

theorem promiseAll_map_resolved (f : JsValue → CallOutcome) (cs : List JsValue)
    (h : ∀ c ∈ cs, ∃ r, f c = CallOutcome.resolved r) :
    ∃ rs, promiseAll (cs.map f) = some rs
      ∧ rs.length = cs.length
      ∧ ∀ i, i < cs.length →
          f (cs.getD i JsValue.null) = CallOutcome.resolved (rs.getD i JsValue.null) := by
  induction cs with
  | nil =>
    refine ⟨[], rfl, rfl, ?_⟩
    intro i hi
    simp at hi
  | cons c tl ih =>
    obtain ⟨r, hr⟩ := h c (by simp)
    obtain ⟨rs, hrs, hlen, hidx⟩ := ih (fun x hx => h x (by simp [hx]))
    refine ⟨r :: rs, ?_, by simp [hlen], ?_⟩
    · simp [promiseAll, hr, hrs]
    · intro i hi
      cases i with
      | zero => simpa using hr
      | succ j => simpa using hidx j (by simpa using hi)

/-- Claim C4 counterexample: a sibling entry whose handler throws
`null` rejects the whole `Promise.all`, so no response array of length
2 is delivered and the first entry's outcome is withheld — refuting
"one entry's handler failure never alters or blocks any sibling
entry's outcome" for arbitrary handler behaviour. -/
theorem rpc_batch_nullish_sibling_blocks :
    RPC.batch [("good", fun _ _ => HandlerOutcome.ok (JsValue.number 1)),
               ("bad", fun _ _ => HandlerOutcome.thrown JsValue.null)]
      (JsValue.array [JsValue.object [("method", JsValue.string "good")],
                      JsValue.object [("method", JsValue.string "bad")]])
      (JsValue.object [])
    = BatchOutcome.rejected :=
  rfl

/-- Claim C4 (corrected): for every array input all of whose entries
the dispatcher resolves — which covers every ordinary per-entry
success or failure, i.e. any handler outcome except throwing a nullish
value — `batch` resolves to an array of exactly n CallResponses whose
entry at index i is the dispatch outcome of the input call at index i.
(An entry whose handler throws `null`/`undefined` rejects the whole
batch instead, see the counterexample.) -/
theorem rpc_batch_length_and_index (ms : Methods) (cs : List JsValue) (req : JsValue)
    (h : ∀ c ∈ cs, ∃ r, RPC.call ms c req = CallOutcome.resolved r) :
    ∃ rs, RPC.batch ms (JsValue.array cs) req = BatchOutcome.resolvedList rs
      ∧ rs.length = cs.length
      ∧ ∀ i, i < cs.length →
          RPC.call ms (cs.getD i JsValue.null) req
            = CallOutcome.resolved (rs.getD i JsValue.null) := by
  obtain ⟨rs, h1, h2, h3⟩ := promiseAll_map_resolved (fun c => RPC.call ms c req) cs h
  exact ⟨rs, by simp only [RPC.batch, h1], h2, h3⟩

/-- Claim C4 witness: the spec's two-entry batch — a succeeding
`subtract` call and a failing unknown-method call — resolves to two
index-matched responses. -/
theorem rpc_batch_length_and_index_witness :
    ∃ rs,
      RPC.batch
        [("subtract", fun p _ =>
            match p.lookup "a", p.lookup "b" with
            | some (JsValue.number a), some (JsValue.number b) =>
                HandlerOutcome.ok (JsValue.number (a - b))
            | _, _ =>
                HandlerOutcome.thrown (JsValue.object [("message", JsValue.string "invalid params")]))]
        (JsValue.array
          [JsValue.object [("id", JsValue.string "abc"), ("method", JsValue.string "subtract"),
             ("params", JsValue.object [("a", JsValue.number 42), ("b", JsValue.number 23)])],
           JsValue.object [("id", JsValue.string "def"), ("method", JsValue.string "foobar")]])
        (JsValue.object [])
      = BatchOutcome.resolvedList rs
      ∧ rs.length
        = ([JsValue.object [("id", JsValue.string "abc"), ("method", JsValue.string "subtract"),
              ("params", JsValue.object [("a", JsValue.number 42), ("b", JsValue.number 23)])],
            JsValue.object [("id", JsValue.string "def"), ("method", JsValue.string "foobar")]]
           : List JsValue).length
      ∧ ∀ i, i < ([JsValue.object [("id", JsValue.string "abc"), ("method", JsValue.string "subtract"),
              ("params", JsValue.object [("a", JsValue.number 42), ("b", JsValue.number 23)])],
            JsValue.object [("id", JsValue.string "def"), ("method", JsValue.string "foobar")]]
           : List JsValue).length →
          RPC.call
            [("subtract", fun p _ =>
                match p.lookup "a", p.lookup "b" with
                | some (JsValue.number a), some (JsValue.number b) =>
                    HandlerOutcome.ok (JsValue.number (a - b))
                | _, _ =>
                    HandlerOutcome.thrown (JsValue.object [("message", JsValue.string "invalid params")]))]
            (([JsValue.object [("id", JsValue.string "abc"), ("method", JsValue.string "subtract"),
                 ("params", JsValue.object [("a", JsValue.number 42), ("b", JsValue.number 23)])],
               JsValue.object [("id", JsValue.string "def"), ("method", JsValue.string "foobar")]]
              : List JsValue).getD i JsValue.null)
            (JsValue.object [])
          = CallOutcome.resolved (rs.getD i JsValue.null) :=
  rpc_batch_length_and_index _ _ (JsValue.object []) (by
    intro c hc
    simp only [List.mem_cons, List.not_mem_nil, or_false] at hc
    rcases hc with rfl | rfl
    · exact ⟨_, rfl⟩
    · exact ⟨_, rfl⟩)

/-! ## A store model for the params shallow copy (claim C8)

`Object.assign({}, call.params)` allocates a *fresh* object and copies
the source's own top-level fields into it; the handler then receives
the fresh object, never the caller's.  To state that the caller's
`params` object survives any mutation the handler applies to its
argument, objects get addresses in a store: the caller's `params` sits
at some address, the copy is allocated at a fresh address (the current
store length), and the handler's mutation rewrites only the copy's
cell. -/

abbrev Store := List Obj

def storeGet (σ : Store) (a : Nat) : Obj :=
  σ.getD a []

/-- `Object.assign({}, src)` (line 69 of `rpc.js`): allocate a fresh
cell holding the source object's top-level fields — or no fields when
`call.params` is `undefined` (`src = none`) — returning the new store
and the fresh address. -/
def objAssignHeap (σ : Store) (src : Option Nat) : Store × Nat :=
  match src with
  | some a => (σ ++ [storeGet σ a], σ.length)
  | none => (σ ++ [[]], σ.length)

/-- The contents the handler's argument object starts out with. -/
def handlerArgInit (σ : Store) (src : Option Nat) : Obj :=
  storeGet (objAssignHeap σ src).1 (objAssignHeap σ src).2

/-- Lines 69–71 of `rpc.js`: build the copy, hand it to the handler,
and let the handler rewrite its argument's top-level fields
arbitrarily (`mu`). -/
def runHandlerOnCopy (σ : Store) (src : Option Nat) (mu : Obj → Obj) : Store :=
  List.set (objAssignHeap σ src).1 (objAssignHeap σ src).2 (mu (handlerArgInit σ src))

theorem storeGet_append_lt (σ : Store) (x : Obj) (a : Nat) (ha : a < σ.length) :
    storeGet (σ ++ [x]) a = storeGet σ a := by
  unfold storeGet
  induction σ generalizing a with
  | nil => simp at ha
  | cons y tl ih =>
    cases a with
    | zero => rfl
    | succ b =>
      simp only [List.cons_append, List.getD_cons_succ]
      exact ih b (by simpa using ha)

theorem storeGet_append_self (σ : Store) (x : Obj) :
    storeGet (σ ++ [x]) σ.length = x := by
  unfold storeGet
  induction σ with
  | nil => rfl
  | cons y tl ih => simp only [List.cons_append, List.length_cons, List.getD_cons_succ]; exact ih

theorem storeGet_set_ne (σ : Store) (a b : Nat) (o : Obj) (h : a ≠ b) :
    storeGet (σ.set b o) a = storeGet σ a := by
  unfold storeGet
  induction σ generalizing a b with
  | nil => rfl
  | cons y tl ih =>
    cases b with
    | zero =>
      cases a with
      | zero => exact absurd rfl h
      | succ a2 => rfl
    | succ b2 =>
      cases a with
      | zero => rfl
      | succ a2 =>
        simp only [List.set_cons_succ, List.getD_cons_succ]
        exact ih a2 b2 (fun hq => h (by rw [hq]))

/-- Claim C8 (confirmed): the dispatcher invokes the handler on
`Object.assign({}, call.params)` — a fresh object whose top-level
contents equal the caller's `params` (empty when `params` is absent) —
so whatever the handler does to its argument, the caller's `params`
cell is unchanged after dispatch.  The last two conjuncts tie this to
`RPC.call`: the handler observes exactly the top-level field list of
the input call's `params`, and the empty list when `params` is
absent. -/
theorem rpc_call_params_shallow_copy (σ : Store) (a : Nat) (mu : Obj → Obj)
    (ha : a < σ.length) (f g : Obj → JsValue) (fs : Obj) (req req2 : JsValue) :
    storeGet (runHandlerOnCopy σ (some a) mu) a = storeGet σ a
    ∧ handlerArgInit σ (some a) = storeGet σ a
    ∧ handlerArgInit σ none = []
    ∧ RPC.call [("m", fun p _ => HandlerOutcome.ok (f p))]
        (JsValue.object [("method", JsValue.string "m"), ("params", JsValue.object fs)]) req
      = CallOutcome.resolved (JsValue.object [("id", JsValue.null), ("result", f fs)])
    ∧ RPC.call [("m", fun p _ => HandlerOutcome.ok (g p))]
        (JsValue.object [("method", JsValue.string "m")]) req2
      = CallOutcome.resolved (JsValue.object [("id", JsValue.null), ("result", g [])]) := by
  refine ⟨?_, ?_, ?_, rfl, rfl⟩
  · unfold runHandlerOnCopy objAssignHeap
    rw [storeGet_set_ne _ _ _ _ (Nat.ne_of_lt ha)]
    exact storeGet_append_lt σ _ a ha
  · unfold handlerArgInit objAssignHeap
    exact storeGet_append_self σ _
  · unfold handlerArgInit objAssignHeap
    exact storeGet_append_self σ _

/-- Claim C8 witness: one caller cell holding `{a: 42}`, a handler
that wipes its argument, and concrete observing handlers. -/
theorem rpc_call_params_shallow_copy_witness :
    storeGet (runHandlerOnCopy [[("a", JsValue.number 42)]] (some 0) (fun _ => [])) 0
      = storeGet [[("a", JsValue.number 42)]] 0
    ∧ handlerArgInit [[("a", JsValue.number 42)]] (some 0)
      = storeGet [[("a", JsValue.number 42)]] 0
    ∧ handlerArgInit [[("a", JsValue.number 42)]] none = []
    ∧ RPC.call [("m", fun p _ => HandlerOutcome.ok (JsValue.object p))]
        (JsValue.object [("method", JsValue.string "m"),
          ("params", JsValue.object [("x", JsValue.number 1)])]) (JsValue.object [])
      = CallOutcome.resolved (JsValue.object
          [("id", JsValue.null), ("result", JsValue.object [("x", JsValue.number 1)])])
    ∧ RPC.call [("m", fun p _ => HandlerOutcome.ok (JsValue.object p))]
        (JsValue.object [("method", JsValue.string "m")]) (JsValue.object [])
      = CallOutcome.resolved (JsValue.object
          [("id", JsValue.null), ("result", JsValue.object [])]) :=
  rpc_call_params_shallow_copy [[("a", JsValue.number 42)]] 0 (fun _ => [])
    (by decide) (fun p => JsValue.object p) (fun p => JsValue.object p)
    [("x", JsValue.number 1)] (JsValue.object []) (JsValue.object [])

theorem lookup_setMethod_self (ms : Methods) (s : String) (h : Handler) :
    (setMethod ms s h).lookup s = some h := by
  induction ms with
  | nil => simp [setMethod, List.lookup]
  | cons p rest ih =>
    obtain ⟨k, v⟩ := p
    by_cases hk : k = s
    · subst hk
      simp [setMethod, List.lookup]
    · have hk2 : (k == s) = false := beq_eq_false_iff_ne.mpr hk
      have hk3 : (s == k) = false := beq_eq_false_iff_ne.mpr (Ne.symm hk)
      simp [setMethod, hk2, hk3, List.lookup, ih]

/-- Claim C9 (confirmed): `addMethod` raises the name `TypeError`
whenever the name is not a non-empty string after trimming, then the
handler `TypeError` when the handler is not a function; otherwise it
inserts or overwrites the entry with no uniqueness error, the new
handler is the one `lookup` finds, and after registering the same name
twice the last handler is the one a dispatch runs. -/
theorem rpc_addMethod_spec (ms : Methods) (name handler : JsArg) :
    (isNonEmptyStringArg name = false →
      RPC.addMethod ms name handler = Except.error "Method name must be a non-empty string")
    ∧ (isNonEmptyStringArg name = true → isFuncArg handler = false →
      RPC.addMethod ms name handler = Except.error "Method handler must be a function")
    ∧ (∀ s h, trimmedEmpty s = false →
      RPC.addMethod ms (JsArg.value (JsValue.string s)) (JsArg.func h)
        = Except.ok (setMethod ms s h))
    ∧ (∀ s h, (setMethod ms s h).lookup s = some h)
    ∧ (∀ (h1 : Handler) (v req : JsValue),
      RPC.call (setMethod (setMethod [] "m" h1) "m" (fun _ _ => HandlerOutcome.ok v))
        (JsValue.object [("method", JsValue.string "m")]) req
      = CallOutcome.resolved (JsValue.object [("id", JsValue.null), ("result", v)])) := by
  refine ⟨?_, ?_, ?_, ?_, ?_⟩
  · intro h1
    unfold RPC.addMethod
    simp only [h1]
    rfl
  · intro h1 h2
    unfold RPC.addMethod
    simp only [h1, h2]
    rfl
  · intro s h hs
    unfold RPC.addMethod
    simp only [isNonEmptyStringArg, hs, isFuncArg, argString, argFunc]
    rfl
  · intro s h
    exact lookup_setMethod_self ms s h
  · intro h1 v req
    rfl

/-- Claim C9 witness: a non-string name, a non-function handler, a
successful registration, a lookup after overwrite, and a dispatch that
runs the second of two handlers registered under the same name. -/
theorem rpc_addMethod_spec_witness :
    RPC.addMethod [] (JsArg.value JsValue.null)
        (JsArg.func (fun _ _ => HandlerOutcome.ok JsValue.null))
      = Except.error "Method name must be a non-empty string"
    ∧ RPC.addMethod [] (JsArg.value (JsValue.string "m")) (JsArg.value JsValue.null)
      = Except.error "Method handler must be a function"
    ∧ RPC.addMethod [] (JsArg.value (JsValue.string "m"))
        (JsArg.func (fun _ _ => HandlerOutcome.ok (JsValue.number 7)))
      = Except.ok (setMethod [] "m" (fun _ _ => HandlerOutcome.ok (JsValue.number 7)))
    ∧ (setMethod [] "m" (fun _ _ => HandlerOutcome.ok (JsValue.number 7))).lookup "m"
      = some (fun _ _ => HandlerOutcome.ok (JsValue.number 7))
    ∧ RPC.call (setMethod (setMethod [] "m" (fun _ _ => HandlerOutcome.thrown JsValue.null)) "m"
        (fun _ _ => HandlerOutcome.ok (JsValue.number 7)))
        (JsValue.object [("method", JsValue.string "m")]) (JsValue.object [])
      = CallOutcome.resolved (JsValue.object [("id", JsValue.null), ("result", JsValue.number 7)]) :=
  ⟨(rpc_addMethod_spec [] (JsArg.value JsValue.null)
      (JsArg.func (fun _ _ => HandlerOutcome.ok JsValue.null))).1 (by decide),
   (rpc_addMethod_spec [] (JsArg.value (JsValue.string "m")) (JsArg.value JsValue.null)).2.1
     (by decide) (by decide),
   (rpc_addMethod_spec [] (JsArg.value (JsValue.string "m"))
      (JsArg.func (fun _ _ => HandlerOutcome.ok (JsValue.number 7)))).2.2.1
     "m" (fun _ _ => HandlerOutcome.ok (JsValue.number 7)) (by decide),
   (rpc_addMethod_spec [] (JsArg.value (JsValue.string "m"))
      (JsArg.func (fun _ _ => HandlerOutcome.ok (JsValue.number 7)))).2.2.2.1
     "m" (fun _ _ => HandlerOutcome.ok (JsValue.number 7)),
   (rpc_addMethod_spec [] (JsArg.value (JsValue.string "m"))
      (JsArg.func (fun _ _ => HandlerOutcome.ok (JsValue.number 7)))).2.2.2.2
     (fun _ _ => HandlerOutcome.thrown JsValue.null) (JsValue.number 7) (JsValue.object [])⟩
